import Mathlib

/-!
Verification of the AI Interior Design front-end (Design-AI).

The application state and its transition handlers (`handleRemoveImage`,
`handleGenerateClick`, `handleSendMessage`, `processFiles`, the preference
load/save/clear handlers, and the chat-message parser `ParsedMessage`) are
shallowly embedded as pure Lean functions.  The external generative-model
service (`geminiService`) is an opaque boundary; it is modelled as a record
of oracle functions returning `Except Unit String`, and each handler that
issues calls additionally returns an event trace recording, in order, the
progress updates, the service calls with their arguments, and the commits
of generated images, so that call-counting and ordering claims can be
stated.

JavaScript `Record<number, string>` objects (the generated-image map) are
modelled as association lists with strictly ascending numeric keys, which
is the enumeration order JavaScript guarantees for integer-like keys; the
`objGet` / `objSet` / `objDelete` operations below mirror property read,
property write, and the `delete` operator on such objects.
-/

namespace DesignAI

/-- The role field of a chat message, from `types.ts` (`ChatMessage.role`). -/
inductive Role where
  | user
  | model
deriving DecidableEq, Repr

/-- The `ChatMessage` record from `types.ts`. -/
structure ChatMessage where
  id : String
  role : Role
  text : String
deriving DecidableEq, Repr

/-- The quality tier `type ImageQuality` from the app module. -/
inductive ImageQuality where
  | standard
  | high
deriving DecidableEq, Repr

/-- The run phase `type AppState` from the app module. -/
inductive AppState where
  | initial
  | generating
  | ready
deriving DecidableEq, Repr

/-- The chat mode `type ChatMode` from the app module. -/
inductive ChatMode where
  | design
  | general
deriving DecidableEq, Repr

/-- JavaScript truthiness of a nullable string: `null`/`undefined` and the
empty string are falsy, every other string is truthy. -/
def jsTruthy : Option String → Bool
  | none => false
  | some s => s ≠ ""

/-- The generated-image store `Record<number, string>`, as an association
list kept in strictly ascending key order (JavaScript's enumeration order
for integer-like keys). -/
abbrev GeneratedMap := List (Nat × String)

/-- Property read `m[k]` on a `Record<number, string>`: `some v` when the
key is present, `none` (JS `undefined`) otherwise. -/
def objGet (m : GeneratedMap) (k : Nat) : Option String :=
  (m.find? (fun p => p.1 == k)).map (·.2)

/-- Property write `m[k] = v`, keeping keys in ascending order (JavaScript
re-enumerates integer-like keys numerically regardless of insertion
order). -/
def objSet : GeneratedMap → Nat → String → GeneratedMap
  | [], k, v => [(k, v)]
  | (k', v') :: rest, k, v =>
    if k < k' then (k, v) :: (k', v') :: rest
    else if k = k' then (k, v) :: rest
    else (k', v') :: objSet rest k v

/-- The `delete m[k]` operator. -/
def objDelete (m : GeneratedMap) (k : Nat) : GeneratedMap :=
  m.filter (fun p => p.1 ≠ k)

/-- Keys strictly ascending: the representation invariant of the
`Record<number, string>` model. -/
def KeysSorted (m : GeneratedMap) : Prop :=
  m.Pairwise (fun a b => a.1 < b.1)

instance (m : GeneratedMap) : Decidable (KeysSorted m) := by
  unfold KeysSorted; infer_instance

/-- The full component state of `App` (the fields the verified handlers
touch; presentational fields such as `isDragging` are omitted). -/
structure App where
  originalImages : List String
  generatedImages : GeneratedMap
  selectedResultIndex : Option Nat
  appState : AppState
  generationProgress : Option (Nat × Nat)
  selectedStyle : Option String
  selectedColorPalette : Option String
  selectedAtmosphere : Option String
  selectedQuality : ImageQuality
  error : Option String
  chatMessages : List ChatMessage
  chatMode : ChatMode
  showProcess : Bool
deriving DecidableEq, Repr

/-- The shift-and-reindex body of the `Object.keys(...).forEach` loop in
`handleRemoveImage`: for a snapshot key `key`, when `key > indexToRemove`
execute `newGenerated[key - 1] = newGenerated[key]; delete newGenerated[key]`
on the current map. -/
def shiftStep (indexToRemove : Nat) (m : GeneratedMap) (key : Nat) : GeneratedMap :=
  if indexToRemove < key then
    match objGet m key with
    | some v => objDelete (objSet m (key - 1) v) key
    | none => objDelete m key
  else m

/-- The generated-image update of `handleRemoveImage`:
`delete newGenerated[indexToRemove]`, then iterate over the snapshot of
`Object.keys(newGenerated)` in ascending order shifting every key greater
than `indexToRemove` down by one. -/
def removeGeneratedAt (current : GeneratedMap) (indexToRemove : Nat) : GeneratedMap :=
  let newGenerated := objDelete current indexToRemove
  (newGenerated.map Prod.fst).foldl (shiftStep indexToRemove) newGenerated

/-- The uploaded-image update of `handleRemoveImage`:
`current.filter((_, index) => index !== indexToRemove)`. -/
def removeOriginalAt (current : List String) (indexToRemove : Nat) : List String :=
  ((current.enum).filter (fun p => p.1 ≠ indexToRemove)).map Prod.snd

/-- The selection update of `handleRemoveImage`: `null` when the removed
index was selected; decremented when the selection is truthy (non-null and
nonzero) and greater than the removed index; unchanged otherwise. -/
def updateSelectedIndex (sel : Option Nat) (indexToRemove : Nat) : Option Nat :=
  match sel with
  | none => none
  | some i =>
    if i = indexToRemove then none
    else if i ≠ 0 ∧ indexToRemove < i then some (i - 1)
    else some i

/-- The handler `handleRemoveImage(indexToRemove)` from the app module. -/
def handleRemoveImage (s : App) (indexToRemove : Nat) : App :=
  { s with
    originalImages := removeOriginalAt s.originalImages indexToRemove
    generatedImages := removeGeneratedAt s.generatedImages indexToRemove
    selectedResultIndex := updateSelectedIndex s.selectedResultIndex indexToRemove }

/-- The external `geminiService` boundary: five opaque asynchronous calls,
each resolving with a string or rejecting (`Except.error`). -/
structure Gemini where
  generateImageWithStyle : String → String → Option String → Option String → ImageQuality → Except Unit String
  applyStyleFromReference : String → String → ImageQuality → Except Unit String
  refineImageWithText : String → String → ImageQuality → Except Unit String
  getChatResponse : String → Except Unit String
  getShoppingSuggestions : String → String → Except Unit String

/-- Observable events of a generation run, recorded in program order:
progress-counter updates, service calls with their arguments, and commits
of generated images into the result map. -/
inductive Event where
  | progress (current total : Nat)
  | callGenerate (src style : String) (palette atmosphere : Option String) (q : ImageQuality)
  | callApplyRef (src ref : String) (q : ImageQuality)
  | commit (idx : Nat) (img : String)
deriving DecidableEq, Repr

/-- The batch-failure banner text set by `handleGenerateClick`'s catch block. -/
def generateErrorText : String := "Failed to generate all images. Please try again."

/-- The `for (let i = 1; i < originalImages.length; i++)` loop of
`handleGenerateClick`: for each remaining image, update the progress
counter, call `applyStyleFromReference` against the reference image, and
commit the result; on the first rejection set the error banner, return to
`initial`, and clear the progress counter (the catch and finally blocks),
issuing no further calls.  On normal exit the state becomes `ready` and
the finally block clears the progress counter. -/
def applyLoop (api : Gemini) (ref : String) (q : ImageQuality) (total : Nat) :
    List String → Nat → App → App × List Event
  | [], _, s => ({ s with appState := .ready, generationProgress := none }, [])
  | img :: more, i, s =>
    let ev₀ := Event.progress (i + 1) total
    let ev₁ := Event.callApplyRef img ref q
    match api.applyStyleFromReference img ref q with
    | .ok styled =>
      let s' := { s with generatedImages := objSet s.generatedImages i styled,
                         generationProgress := some (i + 1, total) }
      let r := applyLoop api ref q total more (i + 1) s'
      (r.1, ev₀ :: ev₁ :: Event.commit i styled :: r.2)
    | .error _ =>
      ({ s with generationProgress := none, error := some generateErrorText,
                appState := .initial },
       [ev₀, ev₁])

/-- The handler `handleGenerateClick` from the app module: guard on a non-empty upload
list and a truthy selected style; reset the run state; then either the
single-image path (one `generateImageWithStyle` call) or the
reference-consistency path (one `generateImageWithStyle` call for image 0
followed by the `applyStyleFromReference` loop).  Returns the final state
and the event trace. -/
def handleGenerateClick (api : Gemini) (s : App) : App × List Event :=
  match s.selectedStyle with
  | none => (s, [])
  | some style =>
    if style = "" then (s, [])
    else
      match s.originalImages with
      | [] => (s, [])
      | img0 :: rest =>
        let s₁ := { s with appState := .generating, error := none, generatedImages := [],
                           chatMessages := [], chatMode := .design,
                           selectedResultIndex := none }
        let total := (img0 :: rest).length
        let ev₀ := Event.progress 1 total
        let ev₁ := Event.callGenerate img0 style s.selectedColorPalette
          s.selectedAtmosphere s.selectedQuality
        match api.generateImageWithStyle img0 style s.selectedColorPalette
            s.selectedAtmosphere s.selectedQuality with
        | .ok referenceImage =>
          match rest with
          | [] =>
            ({ s₁ with generatedImages := [(0, referenceImage)], appState := .ready,
                       generationProgress := none },
             [ev₀, ev₁, Event.commit 0 referenceImage])
          | _ :: _ =>
            let s₂ := { s₁ with generatedImages := [(0, referenceImage)],
                                generationProgress := some (1, total) }
            let r := applyLoop api referenceImage s.selectedQuality total rest 1 s₂
            (r.1, ev₀ :: ev₁ :: Event.commit 0 referenceImage :: r.2)
        | .error _ =>
          ({ s₁ with error := some generateErrorText, appState := .initial,
                     generationProgress := none },
           [ev₀, ev₁])

/-- The expected event sequence of the apply loop when every call
succeeds, with `a` giving each call's result: for each image in order, a
progress update, the `applyStyleFromReference` call against the reference,
and the commit of its result, at strictly ascending indices. -/
def expectedApplyEvents (a : String → String → ImageQuality → String) (ref : String)
    (q : ImageQuality) (total : Nat) : List String → Nat → List Event
  | [], _ => []
  | img :: more, i =>
    Event.progress (i + 1) total :: Event.callApplyRef img ref q
      :: Event.commit i (a img ref q) :: expectedApplyEvents a ref q total more (i + 1)

/-- Sequential commits of `a img` for the images of a list at consecutive
indices starting at `i`. -/
def commitAll (a : String → String) : List String → Nat → GeneratedMap → GeneratedMap
  | [], _, m => m
  | img :: more, i, m => commitAll a more (i + 1) (objSet m i (a img))

/-- The service calls a chat send can issue, with their arguments. -/
inductive ChatCall where
  | shopping (baseImage msg : String)
  | refine (baseImage msg : String) (q : ImageQuality)
  | general (msg : String)
deriving DecidableEq, Repr

/-- The fixed acknowledgement appended after a successful refinement. -/
def refineAckText : String := "I\x27ve updated the selected design. What do you think?"

/-- The fixed apologetic model message appended on any chat-call rejection. -/
def chatErrorText : String := "Sorry, I couldn\x27t process that request. Please try again."

/-- The handler `handleSendMessage(message, isShoppingQuery)` from the app module:
no-op unless a result index is selected; otherwise append the user message
immediately, then branch on chat mode and the truthiness of the selected
generated image, issuing exactly one service call and appending exactly
one model message (the response text, the fixed acknowledgement after a
refinement, or the fixed apology on rejection).  `now` stands for
`Date.now()`, used only for message identifiers.  Returns the new state
and the list of issued calls. -/
def handleSendMessage (api : Gemini) (s : App) (message : String)
    (isShoppingQuery : Bool) (now : Nat) : App × List ChatCall :=
  match s.selectedResultIndex with
  | none => (s, [])
  | some idx =>
    let newUserMessage : ChatMessage := { id := toString now, role := .user, text := message }
    let s₁ := { s with chatMessages := s.chatMessages ++ [newUserMessage], error := none }
    let withModel (t : String) : App :=
      { s₁ with chatMessages :=
          s₁.chatMessages ++ [{ id := toString (now + 1), role := .model, text := t }] }
    let generalCase : App × List ChatCall :=
      match api.getChatResponse message with
      | .ok t => (withModel t, [ChatCall.general message])
      | .error _ => (withModel chatErrorText, [ChatCall.general message])
    match s.chatMode, objGet s.generatedImages idx with
    | ChatMode.design, some baseImage =>
      if baseImage = "" then generalCase
      else if isShoppingQuery then
        match api.getShoppingSuggestions baseImage message with
        | .ok t => (withModel t, [ChatCall.shopping baseImage message])
        | .error _ => (withModel chatErrorText, [ChatCall.shopping baseImage message])
      else
        match api.refineImageWithText baseImage message s.selectedQuality with
        | .ok refinedImage =>
          ({ withModel refineAckText with
               generatedImages := objSet s₁.generatedImages idx refinedImage },
           [ChatCall.refine baseImage message s.selectedQuality])
        | .error _ =>
          (withModel chatErrorText, [ChatCall.refine baseImage message s.selectedQuality])
    | ChatMode.design, none => generalCase
    | ChatMode.general, _ => generalCase

/-- The fixed shopping-keyword set of `ChatInterface.handleSubmit`. -/
def shoppingKeywords : List String := ["shop", "buy", "link", "find", "product", "item"]

/-- Executable contiguous-sublist test (`needle` occurs inside
`haystack`). -/
def listIsInfixOf [BEq α] : List α → List α → Bool
  | needle, [] => needle.isEmpty
  | needle, h :: t => needle.isPrefixOf (h :: t) || listIsInfixOf needle t

/-- JavaScript `s.includes(sub)`: substring containment. -/
def jsIncludes (s sub : String) : Bool := listIsInfixOf sub.data s.data

/-- JavaScript `toLowerCase()` restricted to per-character lowering (the
inputs of interest are ASCII). -/
def jsToLowerCase (s : String) : String := String.mk (s.data.map Char.toLower)

/-- The shopping-intent classification computed in
`ChatInterface.handleSubmit`:
`isDesignMode && shoppingKeywords.some(kw => input.toLowerCase().includes(kw))`. -/
def isShoppingQueryOf (isDesignMode : Bool) (input : String) : Bool :=
  isDesignMode && shoppingKeywords.any (fun kw => jsIncludes (jsToLowerCase input) kw)

/-- The role the other party holds. -/
def Role.flip : Role → Role
  | .user => .model
  | .model => .user

/-- Predicate `alternatesFrom r l`: the messages of `l` alternate roles starting
with `r`. -/
def alternatesFrom : Role → List ChatMessage → Bool
  | _, [] => true
  | r, msg :: rest => msg.role == r && alternatesFrom r.flip rest

/-- A complete transcript: strict user/model alternation beginning with a
user message and ending after a model message (even length). -/
def Alternating (l : List ChatMessage) : Prop :=
  alternatesFrom Role.user l = true ∧ l.length % 2 = 0

instance [DecidableEq ε] [DecidableEq α] : DecidableEq (Except ε α) := fun a b =>
  match a, b with
  | .ok x, .ok y =>
    if h : x = y then isTrue (congrArg Except.ok h)
    else isFalse (fun hh => h (Except.ok.inj hh))
  | .error x, .error y =>
    if h : x = y then isTrue (congrArg Except.error h)
    else isFalse (fun hh => h (Except.error.inj hh))
  | .ok _, .error _ => isFalse (fun hh => Except.noConfusion hh)
  | .error _, .ok _ => isFalse (fun hh => Except.noConfusion hh)

/-- A file-like input to ingestion: its MIME type string and the outcome
of reading it as a data URL (`FileReader` resolves with the encoded
payload or rejects). -/
structure JsFile where
  ftype : String
  decoded : Except Unit String
deriving DecidableEq, Repr

/-- The `Promise.all` over the per-file read promises: resolves with all
payloads in order, or rejects as soon as any single read rejects. -/
def allDecode : List JsFile → Except Unit (List String)
  | [] => .ok []
  | f :: rest =>
    match f.decoded with
    | .ok payload => (allDecode rest).map (payload :: ·)
    | .error e => .error e

/-- The ingestion-failure banner text. -/
def fileErrorText : String := "There was an error processing some of your images."

/-- The helper `resetGenerationState` from the app module. -/
def resetGenerationState (s : App) : App :=
  { s with generatedImages := [], appState := .initial, error := none,
           chatMessages := [], selectedResultIndex := none, showProcess := true }

/-- The handler `processFiles(files)` from the app module: filter to image-typed
files, return unchanged when none remain, decode all of them, and either
commit the whole batch (append and reset generation state) or surface an
error on any decode failure. -/
def processFiles (files : Option (List JsFile)) (s : App) : App :=
  match files with
  | none => s
  | some fs =>
    if fs.length > 0 then
      let imageFiles := fs.filter (fun f => "image/".data.isPrefixOf f.ftype.data)
      if imageFiles.length = 0 then s
      else
        match allDecode imageFiles with
        | .ok newImages =>
          resetGenerationState { s with originalImages := s.originalImages ++ newImages }
        | .error _ => { s with error := some fileErrorText }
    else s

/-- The serialized preferences record stored under `PREFERENCES_KEY`; all
fields may be absent in arbitrary stored data. -/
structure Prefs where
  style : Option String
  colorPalette : Option String
  atmosphere : Option String
  quality : Option ImageQuality
deriving DecidableEq, Repr

/-- The preferences-loading effect run at startup: each truthy stored
field overwrites the corresponding selection, absent (or falsy) fields
leave the current selection unchanged; an absent record changes
nothing. -/
def loadPreferences (stored : Option Prefs) (s : App) : App :=
  match stored with
  | none => s
  | some p =>
    let s₁ := if jsTruthy p.style then { s with selectedStyle := p.style } else s
    let s₂ := if jsTruthy p.colorPalette then { s₁ with selectedColorPalette := p.colorPalette } else s₁
    let s₃ := if jsTruthy p.atmosphere then { s₂ with selectedAtmosphere := p.atmosphere } else s₂
    match p.quality with
    | some q => { s₃ with selectedQuality := q }
    | none => s₃

/-- The handler `handleSavePreferences`: the record written to storage. -/
def handleSavePreferences (s : App) : Option Prefs :=
  some { style := s.selectedStyle, colorPalette := s.selectedColorPalette,
         atmosphere := s.selectedAtmosphere, quality := some s.selectedQuality }

/-- The handler `handleClearPreferences`: remove the stored record and reset the four
selection fields to their defaults. -/
def handleClearPreferences (s : App) : Option Prefs × App :=
  (none, { s with selectedStyle := none, selectedColorPalette := none,
                  selectedAtmosphere := none, selectedQuality := ImageQuality.standard })

/-- A parsed display segment of a chat message: a literal text run or a
structured shopping reference. -/
inductive Segment where
  | text (s : String)
  | item (name url description : String)
deriving DecidableEq, Repr

/-- The lazy URL group of the shopping-link pattern: consume characters
(never a newline) up to the first occurrence of the literal `)** - `,
returning the group and the remainder after the literal. -/
def tryUrl : List Char → Option (List Char × List Char)
  | [] => none
  | c :: rest =>
    if List.isPrefixOf ")** - ".data (c :: rest) then some ([], (c :: rest).drop 6)
    else if c = '\n' then none
    else
      match tryUrl rest with
      | some (u, r) => some (c :: u, r)
      | none => none

/-- The lazy NAME group followed by the literal `](` and the URL group:
the shortest non-newline run after which `](` and a successful URL match
follow, mirroring the backtracking of `\[(.*?)\]\((.*?)\)\*\* - `. -/
def tryName : List Char → Option (List Char × List Char × List Char)
  | [] => none
  | c :: rest =>
    let stop :=
      if List.isPrefixOf "](".data (c :: rest) then
        match tryUrl ((c :: rest).drop 2) with
        | some (u, r) => some (([] : List Char), u, r)
        | none => none
      else none
    match stop with
    | some res => some res
    | none =>
      if c = '\n' then none
      else
        match tryName rest with
        | some (n, u, r) => some (c :: n, u, r)
        | none => none

theorem tryUrl_length : ∀ cs u r, tryUrl cs = some (u, r) → r.length ≤ cs.length := by
  intro cs
  induction cs with
  | nil => intro u r h; simp [tryUrl] at h
  | cons c rest ih =>
    intro u r h
    simp only [tryUrl] at h
    split at h
    · simp only [Option.some.injEq, Prod.mk.injEq] at h
      obtain ⟨-, hr⟩ := h
      subst hr
      simp only [List.length_drop, List.length_cons]
      omega
    · split at h
      · simp at h
      · split at h
        next u' r' heq =>
          simp only [Option.some.injEq, Prod.mk.injEq] at h
          obtain ⟨-, hr⟩ := h
          subst hr
          have := ih _ _ heq
          simp only [List.length_cons]
          omega
        next => simp at h

theorem tryName_length : ∀ cs n u r, tryName cs = some (n, u, r) → r.length ≤ cs.length := by
  intro cs
  induction cs with
  | nil => intro n u r h; simp [tryName] at h
  | cons c rest ih =>
    intro n u r h
    simp only [tryName] at h
    split at h
    next res hres =>
      split at hres
      · split at hres
        next u' r' heq =>
          simp only [Option.some.injEq] at hres
          subst hres
          simp only [Option.some.injEq, Prod.mk.injEq] at h
          obtain ⟨-, -, hr⟩ := h
          subst hr
          have := tryUrl_length _ _ _ heq
          simp only [List.length_drop, List.length_cons] at this ⊢
          omega
        next => simp at hres
      · simp at hres
    next hres =>
      split at h
      · simp at h
      · split at h
        next n' u' r' heq =>
          simp only [Option.some.injEq, Prod.mk.injEq] at h
          obtain ⟨-, -, hr⟩ := h
          subst hr
          have := ih _ _ _ heq
          simp only [List.length_cons]
          omega
        next => simp at h

/-- The `while ((match = shoppingLinkRegex.exec(...)))` loop of
`ParsedMessage`: scan the text left to right; at each position where the
full pattern `- **[NAME](URL)** - DESCRIPTION` matches, flush the pending
literal run (if non-empty), emit the structured shopping reference, and
continue after the match; characters not starting a match accumulate into
the pending literal run, flushed at the end when non-empty.  `acc` holds
the pending literal run in reverse. -/
def parseLoop : List Char → List Char → List Segment
  | acc, [] => if acc.isEmpty then [] else [Segment.text (String.mk acc.reverse)]
  | acc, c :: rest =>
    if List.isPrefixOf "- **[".data (c :: rest) then
      match h : tryName ((c :: rest).drop 5) with
      | some (n, u, r) =>
        let desc := r.takeWhile (fun ch => ch ≠ '\n')
        let rest' := r.drop desc.length
        (if acc.isEmpty then [] else [Segment.text (String.mk acc.reverse)]) ++
          Segment.item (String.mk n) (String.mk u) (String.mk desc) :: parseLoop [] rest'
      | none => parseLoop (c :: acc) rest
    else parseLoop (c :: acc) rest
termination_by _ cs => cs.length
decreasing_by
  all_goals simp only [List.length_cons]
  · have h1 := tryName_length _ _ _ _ h
    have h2 : ((c :: rest).drop 5).length = rest.length - 4 := by
      simp only [List.length_drop, List.length_cons]
      omega
    rw [h2] at h1
    simp only [List.length_drop]
    omega
  · omega
  · omega

/-- The pure content computation of the `ParsedMessage` component: user
messages, and any message whose text does not even contain the literal
`- **[`, render entirely as literal text; otherwise the text is scanned by
the shopping-link pattern loop. -/
def parseMessage (role : Role) (text : String) : List Segment :=
  if role = Role.user || !(jsIncludes text "- **[") then [Segment.text text]
  else parseLoop [] text.data

/-! ## Helper lemmas -/

theorem objGet_nil (i : Nat) : objGet [] i = none := rfl

theorem objGet_cons (k' : Nat) (v' : String) (rest : GeneratedMap) (i : Nat) :
    objGet ((k', v') :: rest) i = if k' = i then some v' else objGet rest i := by
  by_cases h : k' = i
  · rw [objGet, List.find?_cons_of_pos _ (by simp [h]), if_pos h]
    rfl
  · rw [objGet, List.find?_cons_of_neg _ (by simp [h]), if_neg h]
    rfl

theorem objGet_objSet (m : GeneratedMap) (k : Nat) (v : String) (i : Nat) :
    objGet (objSet m k v) i = if i = k then some v else objGet m i := by
  induction m with
  | nil =>
    by_cases h : i = k
    · subst h; simp [objSet, objGet_cons]
    · simp only [objSet, objGet_cons, objGet_nil]
      rw [if_neg (fun hh => h hh.symm), if_neg h]
  | cons p rest ih =>
    obtain ⟨k', v'⟩ := p
    simp only [objSet]
    rcases Nat.lt_trichotomy k k' with h1 | h1 | h1
    · rw [if_pos h1]
      by_cases h : i = k
      · subst h; simp [objGet_cons]
      · rw [objGet_cons, if_neg (fun hh => h hh.symm), if_neg h, objGet_cons]
    · rw [if_neg (by omega), if_pos h1]
      subst h1
      by_cases h : i = k
      · subst h; simp [objGet_cons]
      · rw [objGet_cons, if_neg (fun hh => h hh.symm), if_neg h, objGet_cons,
          if_neg (fun hh => h hh.symm)]
    · rw [if_neg (by omega), if_neg (by omega)]
      by_cases h2 : k' = i
      · have hik : ¬ i = k := by omega
        rw [objGet_cons, if_pos h2, if_neg hik, objGet_cons, if_pos h2]
      · rw [objGet_cons, if_neg h2, ih]
        by_cases h : i = k
        · simp [h]
        · simp [h, objGet_cons, h2]

/-- A state used to instantiate hypothesis-bearing theorems at concrete
inputs. -/
def sampleApp : App :=
  { originalImages := ["up0", "up1", "up2"]
    generatedImages := [(0, "gen0"), (1, "gen1"), (2, "gen2")]
    selectedResultIndex := some 2
    appState := AppState.ready
    generationProgress := none
    selectedStyle := some "Industrial"
    selectedColorPalette := none
    selectedAtmosphere := some "Bright & Airy"
    selectedQuality := ImageQuality.standard
    error := none
    chatMessages := []
    chatMode := ChatMode.design
    showProcess := false }

/-! ## Claims -/

/-- C10: removing the uploaded image at index `k` re-aligns the selected
result index: a selection equal to `k` becomes `none`, a selection greater
than `k` decreases by exactly one, and a selection less than `k`
(including index 0) is unchanged. -/
theorem C10_selection_realignment (s : App) (k : Nat) :
    (s.selectedResultIndex = some k → (handleRemoveImage s k).selectedResultIndex = none)
    ∧ (∀ i, s.selectedResultIndex = some i → k < i →
        (handleRemoveImage s k).selectedResultIndex = some (i - 1))
    ∧ (∀ i, s.selectedResultIndex = some i → i < k →
        (handleRemoveImage s k).selectedResultIndex = some i) := by
  refine ⟨?_, ?_, ?_⟩
  · intro h
    simp [handleRemoveImage, updateSelectedIndex, h]
  · intro i h hk
    have hi : i ≠ 0 := by omega
    simp [handleRemoveImage, updateSelectedIndex, h, hk, hi]
    omega
  · intro i h hk
    have h1 : i ≠ k := by omega
    have h2 : ¬ (i ≠ 0 ∧ k < i) := by omega
    simp [handleRemoveImage, updateSelectedIndex, h, h1, h2]

/-- Witness for C10 at the concrete state `sampleApp` (selection 2) and
removal indices 2, 1 and 3. -/
theorem C10_selection_realignment_witness :
    (handleRemoveImage sampleApp 2).selectedResultIndex = none
    ∧ (handleRemoveImage sampleApp 1).selectedResultIndex = some 1
    ∧ (handleRemoveImage sampleApp 3).selectedResultIndex = some 2 :=
  ⟨(C10_selection_realignment sampleApp 2).1 (by decide),
   (C10_selection_realignment sampleApp 1).2.1 2 (by decide) (by decide),
   (C10_selection_realignment sampleApp 3).2.2 2 (by decide) (by decide)⟩

/-- C8: saving preferences and reloading restores the style, palette,
atmosphere and quality selected at save time; fields that were unset at
save time are stored as null and leave the in-memory selection of the
loading session unchanged; clearing preferences removes the stored record
and resets all four fields to their defaults. -/
theorem C8_preferences_roundtrip (s s' : App)
    (hstyle : s.selectedStyle ≠ some "")
    (hpal : s.selectedColorPalette ≠ some "")
    (hatm : s.selectedAtmosphere ≠ some "") :
    ((s.selectedStyle.isSome →
        (loadPreferences (handleSavePreferences s) s').selectedStyle = s.selectedStyle)
      ∧ (s.selectedStyle = none →
        (loadPreferences (handleSavePreferences s) s').selectedStyle = s'.selectedStyle)
      ∧ (s.selectedColorPalette.isSome →
        (loadPreferences (handleSavePreferences s) s').selectedColorPalette = s.selectedColorPalette)
      ∧ (s.selectedColorPalette = none →
        (loadPreferences (handleSavePreferences s) s').selectedColorPalette = s'.selectedColorPalette)
      ∧ (s.selectedAtmosphere.isSome →
        (loadPreferences (handleSavePreferences s) s').selectedAtmosphere = s.selectedAtmosphere)
      ∧ (s.selectedAtmosphere = none →
        (loadPreferences (handleSavePreferences s) s').selectedAtmosphere = s'.selectedAtmosphere)
      ∧ (loadPreferences (handleSavePreferences s) s').selectedQuality = s.selectedQuality)
    ∧ ((handleClearPreferences s).1 = none
      ∧ (handleClearPreferences s).2.selectedStyle = none
      ∧ (handleClearPreferences s).2.selectedColorPalette = none
      ∧ (handleClearPreferences s).2.selectedAtmosphere = none
      ∧ (handleClearPreferences s).2.selectedQuality = ImageQuality.standard) := by
  constructor
  · cases hst : s.selectedStyle with
    | none =>
      cases hcp : s.selectedColorPalette with
      | none =>
        cases hat : s.selectedAtmosphere with
        | none => simp [loadPreferences, handleSavePreferences, jsTruthy, hst, hcp, hat]
        | some a =>
          have : a ≠ "" := fun h => hatm (h ▸ hat)
          simp [loadPreferences, handleSavePreferences, jsTruthy, hst, hcp, hat, this]
      | some cp =>
        have hcp' : cp ≠ "" := fun h => hpal (h ▸ hcp)
        cases hat : s.selectedAtmosphere with
        | none => simp [loadPreferences, handleSavePreferences, jsTruthy, hst, hcp, hat, hcp']
        | some a =>
          have : a ≠ "" := fun h => hatm (h ▸ hat)
          simp [loadPreferences, handleSavePreferences, jsTruthy, hst, hcp, hat, hcp', this]
    | some st =>
      have hst' : st ≠ "" := fun h => hstyle (h ▸ hst)
      cases hcp : s.selectedColorPalette with
      | none =>
        cases hat : s.selectedAtmosphere with
        | none => simp [loadPreferences, handleSavePreferences, jsTruthy, hst, hcp, hat, hst']
        | some a =>
          have : a ≠ "" := fun h => hatm (h ▸ hat)
          simp [loadPreferences, handleSavePreferences, jsTruthy, hst, hcp, hat, hst', this]
      | some cp =>
        have hcp' : cp ≠ "" := fun h => hpal (h ▸ hcp)
        cases hat : s.selectedAtmosphere with
        | none => simp [loadPreferences, handleSavePreferences, jsTruthy, hst, hcp, hat, hst', hcp']
        | some a =>
          have : a ≠ "" := fun h => hatm (h ▸ hat)
          simp [loadPreferences, handleSavePreferences, jsTruthy, hst, hcp, hat, hst', hcp', this]
  · simp [handleClearPreferences]

/-- Witness for C8 at `sampleApp` (style and atmosphere set, palette
unset) loading back into `sampleApp` itself. -/
theorem C8_preferences_roundtrip_witness :
    ((sampleApp.selectedStyle.isSome →
        (loadPreferences (handleSavePreferences sampleApp) sampleApp).selectedStyle = sampleApp.selectedStyle)
      ∧ (sampleApp.selectedStyle = none →
        (loadPreferences (handleSavePreferences sampleApp) sampleApp).selectedStyle = sampleApp.selectedStyle)
      ∧ (sampleApp.selectedColorPalette.isSome →
        (loadPreferences (handleSavePreferences sampleApp) sampleApp).selectedColorPalette = sampleApp.selectedColorPalette)
      ∧ (sampleApp.selectedColorPalette = none →
        (loadPreferences (handleSavePreferences sampleApp) sampleApp).selectedColorPalette = sampleApp.selectedColorPalette)
      ∧ (sampleApp.selectedAtmosphere.isSome →
        (loadPreferences (handleSavePreferences sampleApp) sampleApp).selectedAtmosphere = sampleApp.selectedAtmosphere)
      ∧ (sampleApp.selectedAtmosphere = none →
        (loadPreferences (handleSavePreferences sampleApp) sampleApp).selectedAtmosphere = sampleApp.selectedAtmosphere)
      ∧ (loadPreferences (handleSavePreferences sampleApp) sampleApp).selectedQuality = sampleApp.selectedQuality)
    ∧ ((handleClearPreferences sampleApp).1 = none
      ∧ (handleClearPreferences sampleApp).2.selectedStyle = none
      ∧ (handleClearPreferences sampleApp).2.selectedColorPalette = none
      ∧ (handleClearPreferences sampleApp).2.selectedAtmosphere = none
      ∧ (handleClearPreferences sampleApp).2.selectedQuality = ImageQuality.standard) :=
  C8_preferences_roundtrip sampleApp sampleApp (by decide) (by decide) (by decide)

theorem allDecode_error_iff : ∀ l : List JsFile,
    (∃ e, allDecode l = Except.error e) ↔ ∃ f ∈ l, ∃ e, f.decoded = Except.error e := by
  intro l
  induction l with
  | nil => simp [allDecode]
  | cons f rest ih =>
    cases hd : f.decoded with
    | ok p =>
      cases har : allDecode rest with
      | ok ps =>
        simp only [allDecode, hd, har, Except.map, List.mem_cons]
        constructor
        · rintro ⟨e, he⟩
          cases he
        · rintro ⟨f', hf', e, he⟩
          rcases hf' with rfl | hmem
          · rw [hd] at he
            cases he
          · obtain ⟨e', he'⟩ := ih.mpr ⟨f', hmem, e, he⟩
            rw [har] at he'
            cases he'
      | error e0 =>
        simp only [allDecode, hd, har, Except.map, List.mem_cons]
        constructor
        · rintro -
          obtain ⟨f', hf', e, he⟩ := ih.mp ⟨e0, har⟩
          exact ⟨f', Or.inr hf', e, he⟩
        · rintro -
          trivial
    | error e0 =>
      simp only [allDecode, hd, List.mem_cons]
      constructor
      · rintro -
        exact ⟨f, Or.inl rfl, e0, hd⟩
      · rintro -
        trivial

/-- C9: ingestion drops non-image files; with no image files left nothing
changes; when every accepted file decodes, the whole batch is appended in
one commit and all generation-dependent state is reset; when any single
decode fails (exactly when `Promise.all` rejects, fourth conjunct),
nothing is committed and only the error banner changes. -/
theorem C9_ingestion_batch (s : App) (fs : List JsFile) :
    ((fs.filter (fun f => "image/".data.isPrefixOf f.ftype.data)) = [] → processFiles (some fs) s = s)
    ∧ (∀ payloads, allDecode (fs.filter (fun f => "image/".data.isPrefixOf f.ftype.data)) = Except.ok payloads →
        fs.filter (fun f => "image/".data.isPrefixOf f.ftype.data) ≠ [] →
        processFiles (some fs) s =
          { s with originalImages := s.originalImages ++ payloads, generatedImages := [],
                   appState := AppState.initial, error := none, chatMessages := [],
                   selectedResultIndex := none, showProcess := true })
    ∧ (∀ e, allDecode (fs.filter (fun f => "image/".data.isPrefixOf f.ftype.data)) = Except.error e →
        fs.filter (fun f => "image/".data.isPrefixOf f.ftype.data) ≠ [] →
        processFiles (some fs) s = { s with error := some fileErrorText })
    ∧ ((∃ e, allDecode (fs.filter (fun f => "image/".data.isPrefixOf f.ftype.data)) = Except.error e) ↔
        ∃ f ∈ fs.filter (fun f => "image/".data.isPrefixOf f.ftype.data), ∃ e, f.decoded = Except.error e) := by
  refine ⟨?_, ?_, ?_, allDecode_error_iff _⟩
  · intro h
    by_cases hfs : fs.length > 0
    · simp [processFiles, hfs, h]
    · simp [processFiles, hfs]
  · intro payloads hdec hne
    have hfs : fs ≠ [] := by
      intro hh
      subst hh
      simp at hne
    have hlen : fs.length > 0 := List.length_pos.mpr hfs
    have hfilter : ¬ ((fs.filter (fun f => "image/".data.isPrefixOf f.ftype.data)).length = 0) := by
      simpa [List.length_eq_zero] using hne
    simp [processFiles, hlen, hfilter, hdec, resetGenerationState]
  · intro e hdec hne
    have hfs : fs ≠ [] := by
      intro hh
      subst hh
      simp at hne
    have hlen : fs.length > 0 := List.length_pos.mpr hfs
    have hfilter : ¬ ((fs.filter (fun f => "image/".data.isPrefixOf f.ftype.data)).length = 0) := by
      simpa [List.length_eq_zero] using hne
    simp [processFiles, hlen, hfilter, hdec]

/-- Concrete ingestion batch in which every image-typed file decodes. -/
def sampleFilesOk : List JsFile :=
  [{ ftype := "image/png", decoded := Except.ok "data0" },
   { ftype := "text/plain", decoded := Except.ok "junk" },
   { ftype := "image/jpeg", decoded := Except.ok "data1" }]

/-- Concrete ingestion batch in which one image-typed file fails to
decode. -/
def sampleFilesBad : List JsFile :=
  [{ ftype := "image/png", decoded := Except.ok "data0" },
   { ftype := "image/gif", decoded := Except.error () }]

/-- Witness for C9: the all-ok batch commits both image payloads (the
text file is dropped) and the failing batch changes only the error
banner. -/
theorem C9_ingestion_batch_witness :
    processFiles (some sampleFilesOk) sampleApp =
      { sampleApp with originalImages := sampleApp.originalImages ++ ["data0", "data1"],
                       generatedImages := [], appState := AppState.initial, error := none,
                       chatMessages := [], selectedResultIndex := none, showProcess := true }
    ∧ processFiles (some sampleFilesBad) sampleApp = { sampleApp with error := some fileErrorText } :=
  ⟨(C9_ingestion_batch sampleApp sampleFilesOk).2.1 ["data0", "data1"] (by decide) (by decide),
   (C9_ingestion_batch sampleApp sampleFilesBad).2.2.1 () (by decide) (by decide)⟩

theorem listIsInfixOf_iff {α : Type} [DecidableEq α] (n : List α) :
    ∀ h : List α, listIsInfixOf n h = true ↔ n <:+: h := by
  intro h
  induction h with
  | nil =>
    simp only [listIsInfixOf, List.isEmpty_iff, List.infix_nil]
  | cons c t ih =>
    simp only [listIsInfixOf, Bool.or_eq_true, List.isPrefixOf_iff_prefix, ih,
      List.infix_cons_iff]

/-- An oracle with fixed successful responses, used to instantiate
theorems at concrete inputs. -/
def sampleApi : Gemini :=
  { generateImageWithStyle := fun _ _ _ _ _ => Except.ok "styledImage"
    applyStyleFromReference := fun _ _ _ => Except.ok "appliedImage"
    refineImageWithText := fun _ _ _ => Except.ok "refinedImage"
    getChatResponse := fun _ => Except.ok "chatReply"
    getShoppingSuggestions := fun _ _ => Except.ok "- **[Sofa](http://x)** - Grey linen sofa" }

/-- C6: an input sent in design mode is classified as a shopping query
exactly when its lowercased text contains some member of the fixed keyword
set {shop, buy, link, find, product, item}; a shopping-classified send
with a selection and a truthy selected generated image issues exactly one
`getShoppingSuggestions` call (in particular no refinement call); and
"find a similar lamp" is classified as a shopping query. -/
theorem C6_shopping_classification :
    (∀ input : String, isShoppingQueryOf true input = true ↔
        ∃ kw ∈ shoppingKeywords, kw.data <:+: (jsToLowerCase input).data)
    ∧ isShoppingQueryOf true "find a similar lamp" = true
    ∧ (∀ (api : Gemini) (s : App) (idx : Nat) (base msg : String) (now : Nat),
        s.selectedResultIndex = some idx → s.chatMode = ChatMode.design →
        objGet s.generatedImages idx = some base → base ≠ "" →
        (handleSendMessage api s msg true now).2 = [ChatCall.shopping base msg]) := by
  refine ⟨?_, by decide, ?_⟩
  · intro input
    simp only [isShoppingQueryOf, Bool.true_and, List.any_eq_true, jsIncludes,
      listIsInfixOf_iff]
  · intro api s idx base msg now hsel hmode hbase hne
    cases hshop : api.getShoppingSuggestions base msg with
    | ok t => simp [handleSendMessage, hsel, hmode, hbase, hne, hshop]
    | error e => simp [handleSendMessage, hsel, hmode, hbase, hne, hshop]

/-- Witness for C6: the scenario input at the concrete state `sampleApp`
(design mode, selection 2, generated image "gen2"). -/
theorem C6_shopping_classification_witness :
    isShoppingQueryOf true "find a similar lamp" = true
    ∧ (handleSendMessage sampleApi sampleApp "find a similar lamp" true 5).2 =
        [ChatCall.shopping "gen2" "find a similar lamp"] :=
  ⟨C6_shopping_classification.2.1,
   C6_shopping_classification.2.2 sampleApi sampleApp 2 "gen2" "find a similar lamp" 5
     (by decide) (by decide) (by decide) (by decide)⟩

/-- C5: a successful non-shopping refinement in design mode replaces only
the selected generated image; every other generated index, and the
uploaded-image list, are unchanged; the fixed acknowledgement is appended
after the user message; exactly the one refinement call is issued. -/
theorem C5_refinement_in_place (api : Gemini) (s : App) (idx : Nat)
    (base refinedImage msg : String) (now : Nat)
    (hsel : s.selectedResultIndex = some idx)
    (hmode : s.chatMode = ChatMode.design)
    (hbase : objGet s.generatedImages idx = some base)
    (hne : base ≠ "")
    (hok : api.refineImageWithText base msg s.selectedQuality = Except.ok refinedImage) :
    objGet (handleSendMessage api s msg false now).1.generatedImages idx = some refinedImage
    ∧ (∀ j, j ≠ idx →
        objGet (handleSendMessage api s msg false now).1.generatedImages j =
          objGet s.generatedImages j)
    ∧ (handleSendMessage api s msg false now).1.originalImages = s.originalImages
    ∧ (handleSendMessage api s msg false now).1.chatMessages =
        s.chatMessages ++ [{ id := toString now, role := Role.user, text := msg },
                           { id := toString (now + 1), role := Role.model, text := refineAckText }]
    ∧ (handleSendMessage api s msg false now).2 =
        [ChatCall.refine base msg s.selectedQuality] := by
  have hred : handleSendMessage api s msg false now =
      ({ s with error := none,
                generatedImages :=
                  objSet s.generatedImages idx refinedImage,
                chatMessages :=
                  s.chatMessages ++ [{ id := toString now, role := Role.user, text := msg },
                                     { id := toString (now + 1), role := Role.model,
                                       text := refineAckText }] },
       [ChatCall.refine base msg s.selectedQuality]) := by
    simp [handleSendMessage, hsel, hmode, hbase, hne, hok]
  rw [hred]
  refine ⟨?_, ?_, rfl, rfl, rfl⟩
  · simp [objGet_objSet]
  · intro j hj
    simp [objGet_objSet, hj]

/-- Witness for C5 at `sampleApp` (selection 2, generated image "gen2")
with the always-succeeding oracle `sampleApi`. -/
theorem C5_refinement_in_place_witness :
    objGet (handleSendMessage sampleApi sampleApp "make the walls blue" false 7).1.generatedImages 2 =
      some "refinedImage"
    ∧ (∀ j, j ≠ 2 →
        objGet (handleSendMessage sampleApi sampleApp "make the walls blue" false 7).1.generatedImages j =
          objGet sampleApp.generatedImages j)
    ∧ (handleSendMessage sampleApi sampleApp "make the walls blue" false 7).1.originalImages =
        sampleApp.originalImages
    ∧ (handleSendMessage sampleApi sampleApp "make the walls blue" false 7).1.chatMessages =
        sampleApp.chatMessages ++
          [{ id := toString 7, role := Role.user, text := "make the walls blue" },
           { id := toString (7 + 1), role := Role.model, text := refineAckText }]
    ∧ (handleSendMessage sampleApi sampleApp "make the walls blue" false 7).2 =
        [ChatCall.refine "gen2" "make the walls blue" sampleApp.selectedQuality] :=
  C5_refinement_in_place sampleApi sampleApp 2 "gen2" "refinedImage" "make the walls blue" 7
    (by decide) (by decide) (by decide) (by decide) (by decide)

theorem Role.flip_flip (r : Role) : r.flip.flip = r := by
  cases r <;> rfl

theorem alternatesFrom_append (l l' : List ChatMessage) :
    ∀ r : Role, alternatesFrom r (l ++ l') =
      (alternatesFrom r l && alternatesFrom (if l.length % 2 = 0 then r else r.flip) l') := by
  induction l with
  | nil => intro r; simp [alternatesFrom]
  | cons m t ih =>
    intro r
    simp only [List.cons_append, alternatesFrom, List.length_cons, Bool.and_assoc,
      List.append_eq]
    by_cases hp : t.length % 2 = 0
    · have h2 : ¬ ((t.length + 1) % 2 = 0) := by omega
      simp only [hp, h2, if_true, if_false, reduceIte]
      rw [ih r.flip, if_pos hp]
    · have h2 : (t.length + 1) % 2 = 0 := by omega
      simp only [hp, h2, if_true, if_false, reduceIte]
      rw [ih r.flip, if_neg hp, Role.flip_flip]

theorem Alternating_append_pair (l : List ChatMessage) (u m : ChatMessage)
    (hu : u.role = Role.user) (hm : m.role = Role.model) (h : Alternating l) :
    Alternating (l ++ [u, m]) := by
  obtain ⟨h1, h2⟩ := h
  refine ⟨?_, by simp [List.length_append]; omega⟩
  rw [alternatesFrom_append, h1, if_pos h2]
  simp [alternatesFrom, hu, hm, Role.flip]

theorem handleSendMessage_pair (api : Gemini) (s : App) (msg : String) (q : Bool) (now : Nat)
    (idx : Nat) (hsel : s.selectedResultIndex = some idx) :
    ∃ t, (handleSendMessage api s msg q now).1.chatMessages =
        s.chatMessages ++ [{ id := toString now, role := Role.user, text := msg },
                           { id := toString (now + 1), role := Role.model, text := t }] := by
  simp only [handleSendMessage, hsel]
  cases hcm : s.chatMode with
  | design =>
    cases hbg : objGet s.generatedImages idx with
    | none =>
      cases hcr : api.getChatResponse msg with
      | ok t => exact ⟨t, by simp [hcr]⟩
      | error e => exact ⟨chatErrorText, by simp [hcr]⟩
    | some b =>
      by_cases hb : b = ""
      · cases hcr : api.getChatResponse msg with
        | ok t => exact ⟨t, by simp [hb, hcr]⟩
        | error e => exact ⟨chatErrorText, by simp [hb, hcr]⟩
      · cases q with
        | true =>
          cases hsh : api.getShoppingSuggestions b msg with
          | ok t => exact ⟨t, by simp [hb, hsh]⟩
          | error e => exact ⟨chatErrorText, by simp [hb, hsh]⟩
        | false =>
          cases hrf : api.refineImageWithText b msg s.selectedQuality with
          | ok t => exact ⟨refineAckText, by simp [hb, hrf]⟩
          | error e => exact ⟨chatErrorText, by simp [hb, hrf]⟩
  | general =>
    cases hcr : api.getChatResponse msg with
    | ok t => exact ⟨t, by simp [hcr]⟩
    | error e => exact ⟨chatErrorText, by simp [hcr]⟩

/-- C4: a chat send with no selected result index is a no-op (no state
change, no call); otherwise the user message is appended immediately and
exactly one model message follows it, preserving complete user/model
alternation; when every relevant call rejects the model message is the
fixed apology (the user message is retained); when every call succeeds
the model message is the response text, or the fixed acknowledgement in
the refinement branch. -/
theorem C4_chat_send (api : Gemini) (s : App) (msg : String) (isShoppingQuery : Bool)
    (now : Nat) :
    (s.selectedResultIndex = none → handleSendMessage api s msg isShoppingQuery now = (s, []))
    ∧ (∀ idx, s.selectedResultIndex = some idx →
        ∃ t, (handleSendMessage api s msg isShoppingQuery now).1.chatMessages =
            s.chatMessages ++ [{ id := toString now, role := Role.user, text := msg },
                               { id := toString (now + 1), role := Role.model, text := t }]
          ∧ (Alternating s.chatMessages →
              Alternating (handleSendMessage api s msg isShoppingQuery now).1.chatMessages))
    ∧ (∀ idx, s.selectedResultIndex = some idx →
        (∀ b m, api.getShoppingSuggestions b m = Except.error ()) →
        (∀ b m qq, api.refineImageWithText b m qq = Except.error ()) →
        (∀ m, api.getChatResponse m = Except.error ()) →
        (handleSendMessage api s msg isShoppingQuery now).1.chatMessages =
          s.chatMessages ++ [{ id := toString now, role := Role.user, text := msg },
                             { id := toString (now + 1), role := Role.model,
                               text := chatErrorText }])
    ∧ (∀ idx (sh : String → String → String) (rfn : String → String → ImageQuality → String)
          (cr : String → String),
        s.selectedResultIndex = some idx →
        (∀ b m, api.getShoppingSuggestions b m = Except.ok (sh b m)) →
        (∀ b m qq, api.refineImageWithText b m qq = Except.ok (rfn b m qq)) →
        (∀ m, api.getChatResponse m = Except.ok (cr m)) →
        (handleSendMessage api s msg isShoppingQuery now).1.chatMessages =
          s.chatMessages ++ [{ id := toString now, role := Role.user, text := msg },
                             { id := toString (now + 1), role := Role.model,
                               text := match s.chatMode, objGet s.generatedImages idx with
                                 | ChatMode.design, some b =>
                                   if b = "" then cr msg
                                   else if isShoppingQuery then sh b msg else refineAckText
                                 | ChatMode.design, none => cr msg
                                 | ChatMode.general, _ => cr msg }]) := by
  refine ⟨?_, ?_, ?_, ?_⟩
  · intro h
    simp [handleSendMessage, h]
  · intro idx hsel
    obtain ⟨t, ht⟩ := handleSendMessage_pair api s msg isShoppingQuery now idx hsel
    refine ⟨t, ht, ?_⟩
    intro halt
    rw [ht]
    exact Alternating_append_pair _ _ _ rfl rfl halt
  · intro idx hsel hsh hrf hcr
    simp only [handleSendMessage, hsel]
    cases hcm : s.chatMode with
    | design =>
      cases hbg : objGet s.generatedImages idx with
      | none => simp [hcr]
      | some b =>
        by_cases hb : b = ""
        · simp [hb, hcr]
        · cases isShoppingQuery with
          | true => simp [hb, hsh]
          | false => simp [hb, hrf]
    | general => simp [hcr]
  · intro idx sh rfn cr hsel hsh hrf hcr
    simp only [handleSendMessage, hsel]
    cases hcm : s.chatMode with
    | design =>
      cases hbg : objGet s.generatedImages idx with
      | none => simp [hcr]
      | some b =>
        by_cases hb : b = ""
        · simp [hb, hcr]
        · cases isShoppingQuery with
          | true => simp [hb, hsh]
          | false => simp [hb, hrf]
    | general => simp [hcr]

/-- Witness for C4: the no-op case on a state with no selection, and the
appended user/apology pair at `sampleApp` under an all-rejecting
oracle. -/
theorem C4_chat_send_witness :
    (handleSendMessage sampleApi { sampleApp with selectedResultIndex := none } "hello" false 3 =
      ({ sampleApp with selectedResultIndex := none }, []))
    ∧ (handleSendMessage
          { sampleApi with getShoppingSuggestions := fun _ _ => Except.error (),
                           refineImageWithText := fun _ _ _ => Except.error (),
                           getChatResponse := fun _ => Except.error () }
          sampleApp "hello" false 3).1.chatMessages =
        sampleApp.chatMessages ++ [{ id := toString 3, role := Role.user, text := "hello" },
                                   { id := toString (3 + 1), role := Role.model,
                                     text := chatErrorText }] :=
  ⟨(C4_chat_send sampleApi { sampleApp with selectedResultIndex := none } "hello" false 3).1
      (by decide),
   (C4_chat_send
      { sampleApi with getShoppingSuggestions := fun _ _ => Except.error (),
                       refineImageWithText := fun _ _ _ => Except.error (),
                       getChatResponse := fun _ => Except.error () }
      sampleApp "hello" false 3).2.2.1 2 (by decide)
      (fun _ _ => rfl) (fun _ _ _ => rfl) (fun _ => rfl)⟩

/-- An oracle whose generation and reference-apply calls always succeed,
with results given by the total functions `g` and `a`. -/
def totalApi (g : String → String → Option String → Option String → ImageQuality → String)
    (a : String → String → ImageQuality → String)
    (rfn : String → String → ImageQuality → Except Unit String)
    (cr : String → Except Unit String)
    (sh : String → String → Except Unit String) : Gemini :=
  { generateImageWithStyle := fun src st p am qq => Except.ok (g src st p am qq)
    applyStyleFromReference := fun src r qq => Except.ok (a src r qq)
    refineImageWithText := rfn
    getChatResponse := cr
    getShoppingSuggestions := sh }

theorem totalApi_generate (g : String → String → Option String → Option String → ImageQuality → String)
    (a : String → String → ImageQuality → String)
    (rfn : String → String → ImageQuality → Except Unit String)
    (cr : String → Except Unit String) (sh : String → String → Except Unit String)
    (src st : String) (p am : Option String) (qq : ImageQuality) :
    (totalApi g a rfn cr sh).generateImageWithStyle src st p am qq =
      Except.ok (g src st p am qq) := rfl

theorem totalApi_apply (g : String → String → Option String → Option String → ImageQuality → String)
    (a : String → String → ImageQuality → String)
    (rfn : String → String → ImageQuality → Except Unit String)
    (cr : String → Except Unit String) (sh : String → String → Except Unit String)
    (src r : String) (qq : ImageQuality) :
    (totalApi g a rfn cr sh).applyStyleFromReference src r qq =
      Except.ok (a src r qq) := rfl

theorem applyLoop_ok_trace
    (g : String → String → Option String → Option String → ImageQuality → String)
    (a : String → String → ImageQuality → String)
    (rfn : String → String → ImageQuality → Except Unit String)
    (cr : String → Except Unit String) (sh : String → String → Except Unit String)
    (ref : String) (q : ImageQuality) (total : Nat) :
    ∀ (l : List String) (i : Nat) (s : App),
      (applyLoop (totalApi g a rfn cr sh) ref q total l i s).2 =
        expectedApplyEvents a ref q total l i := by
  intro l
  induction l with
  | nil => intro i s; rfl
  | cons img more ih =>
    intro i s
    simp only [applyLoop, totalApi_apply, expectedApplyEvents]
    rw [ih]

theorem applyLoop_preserves (api : Gemini) (ref : String) (q : ImageQuality) (total : Nat) :
    ∀ (l : List String) (i : Nat) (s : App) (j : Nat), j < i →
      objGet (applyLoop api ref q total l i s).1.generatedImages j =
        objGet s.generatedImages j := by
  intro l
  induction l with
  | nil => intro i s j hj; rfl
  | cons img more ih =>
    intro i s j hj
    simp only [applyLoop]
    cases hap : api.applyStyleFromReference img ref q with
    | ok styled =>
      rw [ih (i + 1) _ j (by omega)]
      simp only [objGet_objSet]
      rw [if_neg (by omega)]
    | error e => rfl

/-- C1: a run started with a non-empty upload list and a selected style,
when every service call succeeds, produces exactly this event trace: one
progress update and one `generateImageWithStyle` call for image 0,
followed (for batches of size N>1) by exactly N−1 `applyStyleFromReference`
calls for images 1..N−1 in strictly ascending order, each against the
committed image-0 result, each preceded by its progress update and
followed by its commit; and the image-0 call's result is GeneratedImage[0].
For a batch of size 1 the apply-event list is empty, so exactly one call
is issued and exactly one image committed. -/
theorem C1_generation_call_pattern
    (g : String → String → Option String → Option String → ImageQuality → String)
    (a : String → String → ImageQuality → String)
    (rfn : String → String → ImageQuality → Except Unit String)
    (cr : String → Except Unit String) (sh : String → String → Except Unit String)
    (s : App) (img0 : String) (rest : List String) (style : String)
    (himgs : s.originalImages = img0 :: rest)
    (hstyle : s.selectedStyle = some style) (hne : style ≠ "") :
    (handleGenerateClick (totalApi g a rfn cr sh) s).2 =
      Event.progress 1 (img0 :: rest).length
        :: Event.callGenerate img0 style s.selectedColorPalette s.selectedAtmosphere
             s.selectedQuality
        :: Event.commit 0 (g img0 style s.selectedColorPalette s.selectedAtmosphere
             s.selectedQuality)
        :: expectedApplyEvents a
             (g img0 style s.selectedColorPalette s.selectedAtmosphere s.selectedQuality)
             s.selectedQuality (img0 :: rest).length rest 1
    ∧ objGet (handleGenerateClick (totalApi g a rfn cr sh) s).1.generatedImages 0 =
        some (g img0 style s.selectedColorPalette s.selectedAtmosphere s.selectedQuality) := by
  simp only [handleGenerateClick, hstyle, himgs, if_neg hne, totalApi_generate]
  cases rest with
  | nil =>
    constructor
    · rfl
    · rfl
  | cons r1 rs =>
    constructor
    · rw [applyLoop_ok_trace]
    · rw [applyLoop_preserves _ _ _ _ _ _ _ 0 (by omega)]
      rfl

/-- Witness for C1 at a three-image batch: the full trace (one generate
call, two ascending reference-apply calls conditioned on the image-0
result, progress before each step, commit after each call) and
GeneratedImage[0]. -/
theorem C1_generation_call_pattern_witness :
    (handleGenerateClick
        (totalApi (fun _ _ _ _ _ => "ref0") (fun src _ _ => src ++ "-styled")
          (fun _ _ _ => Except.ok "r") (fun _ => Except.ok "c") (fun _ _ => Except.ok "s"))
        sampleApp).2 =
      Event.progress 1 3
        :: Event.callGenerate "up0" "Industrial" none (some "Bright & Airy")
             ImageQuality.standard
        :: Event.commit 0 "ref0"
        :: expectedApplyEvents (fun src _ _ => src ++ "-styled") "ref0"
             ImageQuality.standard 3 ["up1", "up2"] 1
    ∧ objGet (handleGenerateClick
        (totalApi (fun _ _ _ _ _ => "ref0") (fun src _ _ => src ++ "-styled")
          (fun _ _ _ => Except.ok "r") (fun _ => Except.ok "c") (fun _ _ => Except.ok "s"))
        sampleApp).1.generatedImages 0 = some "ref0" :=
  C1_generation_call_pattern (fun _ _ _ _ _ => "ref0") (fun src _ _ => src ++ "-styled")
    (fun _ _ _ => Except.ok "r") (fun _ => Except.ok "c") (fun _ _ => Except.ok "s")
    sampleApp "up0" ["up1", "up2"] "Industrial" (by decide) (by decide) (by decide)

theorem commitAll_objGet_isSome (a : String → String) :
    ∀ (pre : List String) (i : Nat) (m : GeneratedMap) (k : Nat),
      (objGet (commitAll a pre i m) k).isSome ↔
        (i ≤ k ∧ k < i + pre.length) ∨ (objGet m k).isSome := by
  intro pre
  induction pre with
  | nil =>
    intro i m k
    simp only [commitAll, List.length_nil]
    constructor
    · exact Or.inr
    · rintro (⟨h1, h2⟩ | h)
      · omega
      · exact h
  | cons x xs ih =>
    intro i m k
    simp only [commitAll, List.length_cons, ih, objGet_objSet]
    by_cases hk : k = i
    · rw [if_pos hk]
      constructor
      · intro _
        exact Or.inl ⟨by omega, by omega⟩
      · intro _
        exact Or.inr (by simp)
    · rw [if_neg hk]
      constructor
      · rintro (⟨h1, h2⟩ | h)
        · exact Or.inl ⟨by omega, by omega⟩
        · exact Or.inr h
      · rintro (⟨h1, h2⟩ | h)
        · exact Or.inl ⟨by omega, by omega⟩
        · exact Or.inr h

theorem applyLoop_fail (api : Gemini) (ref : String) (q : ImageQuality) (total : Nat)
    (a : String → String) (failImg : String) (post : List String)
    (hfail : api.applyStyleFromReference failImg ref q = Except.error ()) :
    ∀ (pre : List String) (i : Nat) (s : App),
      (∀ img ∈ pre, api.applyStyleFromReference img ref q = Except.ok (a img)) →
      applyLoop api ref q total (pre ++ failImg :: post) i s =
        ({ s with generatedImages := commitAll a pre i s.generatedImages,
                  generationProgress := none, error := some generateErrorText,
                  appState := AppState.initial },
         expectedApplyEvents (fun src _ _ => a src) ref q total pre i
           ++ [Event.progress (i + pre.length + 1) total,
               Event.callApplyRef failImg ref q]) := by
  intro pre
  induction pre with
  | nil =>
    intro i s hpre
    simp only [List.nil_append, applyLoop, hfail, commitAll, expectedApplyEvents,
      List.length_nil, List.nil_append]
  | cons x xs ih =>
    intro i s hpre
    have hx : api.applyStyleFromReference x ref q = Except.ok (a x) :=
      hpre x (List.mem_cons_self _ _)
    simp only [List.cons_append, applyLoop, hx, List.append_eq]
    rw [ih (i + 1) _ (fun img hm => hpre img (List.mem_cons_of_mem _ hm))]
    simp only [expectedApplyEvents, commitAll, List.length_cons, List.cons_append]
    have harith : i + 1 + xs.length + 1 = i + (xs.length + 1) + 1 := by omega
    rw [harith]

theorem applyLoop_fail' (api : Gemini) (ref : String) (q : ImageQuality) (total : Nat)
    (a : String → String) (failImg : String) (post pre l : List String)
    (hl : l = pre ++ failImg :: post)
    (hfail : api.applyStyleFromReference failImg ref q = Except.error ())
    (i : Nat) (s : App)
    (hpre : ∀ img ∈ pre, api.applyStyleFromReference img ref q = Except.ok (a img)) :
    applyLoop api ref q total l i s =
      ({ s with generatedImages := commitAll a pre i s.generatedImages,
                generationProgress := none, error := some generateErrorText,
                appState := AppState.initial },
       expectedApplyEvents (fun src _ _ => a src) ref q total pre i
         ++ [Event.progress (i + pre.length + 1) total,
             Event.callApplyRef failImg ref q]) := by
  subst hl
  exact applyLoop_fail api ref q total a failImg post hfail pre i s hpre

theorem handleGenerateClick_multi (api : Gemini) (s : App) (img0 r1 : String)
    (rs : List String) (style : String)
    (himgs : s.originalImages = img0 :: r1 :: rs)
    (hstyle : s.selectedStyle = some style) (hne : style ≠ "")
    (r0 : String)
    (hok : api.generateImageWithStyle img0 style s.selectedColorPalette s.selectedAtmosphere
      s.selectedQuality = Except.ok r0) :
    handleGenerateClick api s =
      ((applyLoop api r0 s.selectedQuality (img0 :: r1 :: rs).length (r1 :: rs) 1
          { s with appState := AppState.generating, error := none,
                   generatedImages := [(0, r0)], chatMessages := [],
                   chatMode := ChatMode.design, selectedResultIndex := none,
                   generationProgress := some (1, (img0 :: r1 :: rs).length) }).1,
       Event.progress 1 (img0 :: r1 :: rs).length
         :: Event.callGenerate img0 style s.selectedColorPalette s.selectedAtmosphere
              s.selectedQuality
         :: Event.commit 0 r0
         :: (applyLoop api r0 s.selectedQuality (img0 :: r1 :: rs).length (r1 :: rs) 1
              { s with appState := AppState.generating, error := none,
                       generatedImages := [(0, r0)], chatMessages := [],
                       chatMode := ChatMode.design, selectedResultIndex := none,
                       generationProgress := some (1, (img0 :: r1 :: rs).length) }).2) := by
  simp only [handleGenerateClick, hstyle, himgs, if_neg hne, hok]

/-- C2: when a generation step fails, no further calls are issued, the
generic batch-failure banner is set, the run returns to `initial` with the
progress indicator cleared, and exactly the images committed by earlier
successful steps remain: on first-call failure the result map is empty
and the trace stops after that call; on failure of the apply call for
index `pre.length + 1`, GeneratedImages exist exactly for indices
`0 .. pre.length`, and the trace ends with that failing call. -/
theorem C2_generation_failure (api : Gemini) (s : App) (img0 : String) (rest : List String)
    (style : String)
    (himgs : s.originalImages = img0 :: rest)
    (hstyle : s.selectedStyle = some style) (hne : style ≠ "") :
    (api.generateImageWithStyle img0 style s.selectedColorPalette s.selectedAtmosphere
        s.selectedQuality = Except.error () →
      handleGenerateClick api s =
        ({ s with appState := AppState.initial, error := some generateErrorText,
                  generatedImages := [], chatMessages := [], chatMode := ChatMode.design,
                  selectedResultIndex := none, generationProgress := none },
         [Event.progress 1 (img0 :: rest).length,
          Event.callGenerate img0 style s.selectedColorPalette s.selectedAtmosphere
            s.selectedQuality]))
    ∧ (∀ (r0 : String) (a : String → String) (failImg : String) (pre post : List String),
        rest = pre ++ failImg :: post →
        api.generateImageWithStyle img0 style s.selectedColorPalette s.selectedAtmosphere
          s.selectedQuality = Except.ok r0 →
        (∀ img ∈ pre, api.applyStyleFromReference img r0 s.selectedQuality = Except.ok (a img)) →
        api.applyStyleFromReference failImg r0 s.selectedQuality = Except.error () →
        ((handleGenerateClick api s).1.appState = AppState.initial
          ∧ (handleGenerateClick api s).1.error = some generateErrorText
          ∧ (handleGenerateClick api s).1.generationProgress = none
          ∧ (∀ k, (objGet (handleGenerateClick api s).1.generatedImages k).isSome ↔
              k < pre.length + 1)
          ∧ (handleGenerateClick api s).2 =
              Event.progress 1 (img0 :: rest).length
                :: Event.callGenerate img0 style s.selectedColorPalette s.selectedAtmosphere
                     s.selectedQuality
                :: Event.commit 0 r0
                :: (expectedApplyEvents (fun src _ _ => a src) r0 s.selectedQuality
                      (img0 :: rest).length pre 1
                    ++ [Event.progress (pre.length + 2) (img0 :: rest).length,
                        Event.callApplyRef failImg r0 s.selectedQuality]))) := by
  constructor
  · intro hfail
    simp only [handleGenerateClick, hstyle, himgs, if_neg hne, hfail]
  · intro r0 a failImg pre post hsplit hok hpre hfail
    have harith : 1 + pre.length + 1 = pre.length + 2 := by omega
    have hred : handleGenerateClick api s =
        ({ s with appState := AppState.initial, error := some generateErrorText,
                  generatedImages := commitAll a pre 1 [(0, r0)], chatMessages := [],
                  chatMode := ChatMode.design, selectedResultIndex := none,
                  generationProgress := none },
         Event.progress 1 (img0 :: rest).length
           :: Event.callGenerate img0 style s.selectedColorPalette s.selectedAtmosphere
                s.selectedQuality
           :: Event.commit 0 r0
           :: (expectedApplyEvents (fun src _ _ => a src) r0 s.selectedQuality
                 (img0 :: rest).length pre 1
               ++ [Event.progress (pre.length + 2) (img0 :: rest).length,
                   Event.callApplyRef failImg r0 s.selectedQuality])) := by
      cases hp : pre with
      | nil =>
        subst hp
        rw [handleGenerateClick_multi api s img0 failImg post style
          (by rw [himgs, hsplit]; rfl) hstyle hne r0 hok]
        rw [applyLoop_fail' api r0 s.selectedQuality (img0 :: failImg :: post).length a failImg
          post [] (failImg :: post) rfl hfail 1 _ (by intro img hm; cases hm)]
        rw [hsplit]
        simp only [List.nil_append, List.length_nil, commitAll, expectedApplyEvents]
      | cons y ys =>
        subst hp
        rw [handleGenerateClick_multi api s img0 y (ys ++ failImg :: post) style
          (by rw [himgs, hsplit, List.cons_append]) hstyle hne r0 hok]
        rw [applyLoop_fail' api r0 s.selectedQuality (img0 :: y :: (ys ++ failImg :: post)).length
          a failImg post (y :: ys) (y :: (ys ++ failImg :: post)) (by rw [List.cons_append])
          hfail 1 _ hpre]
        rw [hsplit]
        simp only [List.cons_append, List.length_cons]
        have h2 : 1 + (ys.length + 1) + 1 = ys.length + 1 + 2 := by omega
        rw [h2]
    rw [hred]
    refine ⟨rfl, rfl, rfl, ?_, rfl⟩
    intro k
    rw [commitAll_objGet_isSome]
    constructor
    · rintro (⟨h1, h2⟩ | h)
      · omega
      · have : k = 0 := by
          by_contra hk0
          rw [objGet_cons, if_neg (fun hh => hk0 hh.symm), objGet_nil] at h
          simp at h
        omega
    · intro hk
      by_cases hk0 : k = 0
      · subst hk0
        right
        rw [objGet_cons, if_pos rfl]
        rfl
      · left
        omega

/-- Witness for C2: a three-image batch whose second
`applyStyleFromReference` call (image index 2) rejects: images 0 and 1
remain, image 2 is absent, state is `initial` with the banner set and the
progress cleared, and no call is issued beyond the failing one; plus a
batch whose very first call rejects. -/
theorem C2_generation_failure_witness :
    ((handleGenerateClick
        { sampleApi with
            generateImageWithStyle := fun _ _ _ _ _ => Except.ok "ref0",
            applyStyleFromReference := fun src _ _ =>
              if src = "up2" then Except.error () else Except.ok (src ++ "-styled") }
        sampleApp).1.appState = AppState.initial
      ∧ (handleGenerateClick
          { sampleApi with
              generateImageWithStyle := fun _ _ _ _ _ => Except.ok "ref0",
              applyStyleFromReference := fun src _ _ =>
                if src = "up2" then Except.error () else Except.ok (src ++ "-styled") }
          sampleApp).1.error = some generateErrorText
      ∧ (handleGenerateClick
          { sampleApi with
              generateImageWithStyle := fun _ _ _ _ _ => Except.ok "ref0",
              applyStyleFromReference := fun src _ _ =>
                if src = "up2" then Except.error () else Except.ok (src ++ "-styled") }
          sampleApp).1.generationProgress = none
      ∧ (∀ k, (objGet (handleGenerateClick
          { sampleApi with
              generateImageWithStyle := fun _ _ _ _ _ => Except.ok "ref0",
              applyStyleFromReference := fun src _ _ =>
                if src = "up2" then Except.error () else Except.ok (src ++ "-styled") }
          sampleApp).1.generatedImages k).isSome ↔ k < ["up1"].length + 1)
      ∧ (handleGenerateClick
          { sampleApi with
              generateImageWithStyle := fun _ _ _ _ _ => Except.ok "ref0",
              applyStyleFromReference := fun src _ _ =>
                if src = "up2" then Except.error () else Except.ok (src ++ "-styled") }
          sampleApp).2 =
          Event.progress 1 (("up0" : String) :: ["up1", "up2"]).length
            :: Event.callGenerate "up0" "Industrial" sampleApp.selectedColorPalette
                 sampleApp.selectedAtmosphere sampleApp.selectedQuality
            :: Event.commit 0 "ref0"
            :: (expectedApplyEvents (fun src _ _ => src ++ "-styled") "ref0"
                  sampleApp.selectedQuality (("up0" : String) :: ["up1", "up2"]).length ["up1"] 1
                ++ [Event.progress (["up1"].length + 2) (("up0" : String) :: ["up1", "up2"]).length,
                    Event.callApplyRef "up2" "ref0" sampleApp.selectedQuality]))
    ∧ handleGenerateClick
        { sampleApi with generateImageWithStyle := fun _ _ _ _ _ => Except.error () }
        sampleApp =
        ({ sampleApp with appState := AppState.initial, error := some generateErrorText,
                          generatedImages := [], chatMessages := [],
                          chatMode := ChatMode.design, selectedResultIndex := none,
                          generationProgress := none },
         [Event.progress 1 (("up0" : String) :: ["up1", "up2"]).length,
          Event.callGenerate "up0" "Industrial" sampleApp.selectedColorPalette
            sampleApp.selectedAtmosphere sampleApp.selectedQuality]) :=
  ⟨(C2_generation_failure
      { sampleApi with
          generateImageWithStyle := fun _ _ _ _ _ => Except.ok "ref0",
          applyStyleFromReference := fun src _ _ =>
            if src = "up2" then Except.error () else Except.ok (src ++ "-styled") }
      sampleApp "up0" ["up1", "up2"] "Industrial" (by decide) (by decide) (by decide)).2
      "ref0" (fun src => src ++ "-styled") "up2" ["up1"] [] (by decide) (by decide)
      (by intro img hm; simp at hm; subst hm; rfl) (by rfl),
   (C2_generation_failure
      { sampleApi with generateImageWithStyle := fun _ _ _ _ _ => Except.error () }
      sampleApp "up0" ["up1", "up2"] "Industrial" (by decide) (by decide) (by decide)).1
      (by rfl)⟩

theorem enumFrom_filter_ne (l : List String) :
    ∀ (n k : Nat),
      ((List.enumFrom n l).filter (fun p => p.1 ≠ n + k)).map Prod.snd = l.eraseIdx k := by
  induction l with
  | nil => intro n k; rfl
  | cons x t ih =>
    intro n k
    rw [List.enumFrom_cons, List.filter_cons]
    cases k with
    | zero =>
      have hdrop : (decide (n ≠ n + 0)) = false := by simp
      rw [hdrop]
      have hkeep : (List.enumFrom (n + 1) t).filter (fun p => p.1 ≠ n + 0) =
          List.enumFrom (n + 1) t := by
        rw [List.filter_eq_self]
        intro p hp
        obtain ⟨h1, -, -⟩ := List.mem_enumFrom (x := p.2) (by simpa using hp)
        simp only [decide_eq_true_eq]
        omega
      rw [if_neg (by simp), hkeep, List.enumFrom_map_snd]
      rfl
    | succ j =>
      rw [if_pos (by simp)]
      have harg : (List.enumFrom (n + 1) t).filter (fun p => p.1 ≠ n + (j + 1)) =
          (List.enumFrom (n + 1) t).filter (fun p => p.1 ≠ (n + 1) + j) := by
        have : n + (j + 1) = (n + 1) + j := by omega
        rw [this]
      rw [List.map_cons, harg, ih (n + 1) j]
      rfl

theorem removeOriginalAt_eq_eraseIdx (l : List String) (k : Nat) :
    removeOriginalAt l k = l.eraseIdx k := by
  have h := enumFrom_filter_ne l 0 k
  simpa [removeOriginalAt, List.enum] using h

/-- The extensional effect of the shift loop: every surviving entry keeps
its value, and its key is decremented exactly when above the removed
key. -/
def shifted (k : Nat) (m : GeneratedMap) : GeneratedMap :=
  m.map (fun p => (if k < p.1 then p.1 - 1 else p.1, p.2))

theorem shifted_cons (k k1 : Nat) (v1 : String) (t : GeneratedMap) :
    shifted k ((k1, v1) :: t) = ((if k < k1 then k1 - 1 else k1), v1) :: shifted k t := rfl

theorem shifted_append (k : Nat) (l1 l2 : GeneratedMap) :
    shifted k (l1 ++ l2) = shifted k l1 ++ shifted k l2 := by
  simp [shifted]

theorem objGet_append_right (l1 l2 : GeneratedMap) (key : Nat)
    (h : ∀ p ∈ l1, p.1 ≠ key) :
    objGet (l1 ++ l2) key = objGet l2 key := by
  induction l1 with
  | nil => rfl
  | cons p t ih =>
    obtain ⟨k1, v1⟩ := p
    have h1 : k1 ≠ key := h (k1, v1) (List.mem_cons_self _ _)
    rw [List.cons_append, objGet_cons, if_neg h1]
    exact ih (fun q hq => h q (List.mem_cons_of_mem _ hq))

theorem objSet_append (l1 l2 : GeneratedMap) (key : Nat) (v : String)
    (h : ∀ p ∈ l1, p.1 < key) :
    objSet (l1 ++ l2) key v = l1 ++ objSet l2 key v := by
  induction l1 with
  | nil => rfl
  | cons p t ih =>
    obtain ⟨k1, v1⟩ := p
    have h1 : k1 < key := h (k1, v1) (List.mem_cons_self _ _)
    rw [List.cons_append]
    simp only [objSet]
    rw [if_neg (by omega), if_neg (by omega),
      ih (fun q hq => h q (List.mem_cons_of_mem _ hq))]
    rfl

theorem objSet_cons_lt (k2 : Nat) (v2 : String) (t : GeneratedMap) (key : Nat) (v : String)
    (h : key < k2) :
    objSet ((k2, v2) :: t) key v = (key, v) :: (k2, v2) :: t := by
  simp only [objSet]
  rw [if_pos h]

theorem objDelete_eq_self (l : GeneratedMap) (key : Nat) (h : ∀ p ∈ l, p.1 ≠ key) :
    objDelete l key = l := by
  rw [objDelete, List.filter_eq_self]
  intro p hp
  simpa using h p hp

/-- One iteration of the shift loop, on a map whose already-processed
entries (`pre`) are in final shifted form and whose unprocessed entries
start with the snapshot key `key`: the iteration moves `(key, v)` to
`key - 1` exactly when `key` is above the removed key. -/
theorem shiftStep_eq (k key : Nat) (v : String) (pre rest : GeneratedMap)
    (hprekey : ∀ p ∈ pre, p.1 < key)
    (hprek : ∀ p ∈ pre, p.1 ≠ k)
    (hrest : ∀ p ∈ rest, key < p.1)
    (hkey : key ≠ k) :
    shiftStep k (shifted k pre ++ (key, v) :: rest) key =
      shifted k (pre ++ [(key, v)]) ++ rest := by
  have hshift_lt : ∀ q ∈ shifted k pre, q.1 < key := by
    intro q hq
    obtain ⟨p, hp, hpq⟩ := List.mem_map.mp hq
    have := hprekey p hp
    subst hpq
    by_cases h1 : k < p.1 <;> simp [h1] <;> omega
  by_cases hck : k < key
  · have hshift_lt1 : ∀ q ∈ shifted k pre, q.1 < key - 1 := by
      intro q hq
      obtain ⟨p, hp, hpq⟩ := List.mem_map.mp hq
      have h1 := hprekey p hp
      have h2 := hprek p hp
      subst hpq
      by_cases h3 : k < p.1 <;> simp [h3] <;> omega
    have hg : objGet (shifted k pre ++ (key, v) :: rest) key = some v := by
      rw [objGet_append_right _ _ _ (fun q hq => by have := hshift_lt q hq; omega),
        objGet_cons, if_pos rfl]
    rw [shiftStep, if_pos hck, hg]
    dsimp only
    have hs : objSet (shifted k pre ++ (key, v) :: rest) (key - 1) v =
        shifted k pre ++ (key - 1, v) :: (key, v) :: rest := by
      rw [objSet_append _ _ _ _ hshift_lt1, objSet_cons_lt _ _ _ _ _ (by omega)]
    rw [hs, objDelete, List.filter_append]
    have hd1 : (shifted k pre).filter (fun p => p.1 ≠ key) = shifted k pre := by
      rw [List.filter_eq_self]
      intro q hq
      have := hshift_lt q hq
      simp only [decide_eq_true_eq]
      omega
    have hd2 : (((key - 1, v) : Nat × String) :: (key, v) :: rest).filter
        (fun p => p.1 ≠ key) = (key - 1, v) :: rest := by
      rw [List.filter_cons, List.filter_cons]
      rw [if_pos (by simp only [decide_eq_true_eq]; omega),
        if_neg (by simp)]
      congr 1
      rw [List.filter_eq_self]
      intro q hq
      have := hrest q hq
      simp only [decide_eq_true_eq]
      omega
    rw [hd1, hd2, shifted_append]
    have hsh : shifted k [(key, v)] = [(key - 1, v)] := by
      simp [shifted, hck]
    rw [hsh, List.append_assoc, List.singleton_append]
  · rw [shiftStep, if_neg (by omega)]
    rw [shifted_append]
    have hsh : shifted k [(key, v)] = [(key, v)] := by
      simp [shifted, hck]
    rw [hsh, List.append_assoc, List.singleton_append]

/-- The whole `Object.keys(...).forEach` loop, as an invariant over the
split of the snapshot into processed and unprocessed entries. -/
theorem fold_shift_inv (k : Nat) :
    ∀ (todo pre : GeneratedMap),
      KeysSorted (pre ++ todo) → (∀ p ∈ pre ++ todo, p.1 ≠ k) →
      (todo.map Prod.fst).foldl (shiftStep k) (shifted k pre ++ todo) =
        shifted k (pre ++ todo) := by
  intro todo
  induction todo with
  | nil =>
    intro pre _ _
    simp [List.foldl_nil]
  | cons p rest ih =>
    obtain ⟨key, v⟩ := p
    intro pre hsort hnk
    rw [List.map_cons, List.foldl_cons]
    have hsort' := hsort
    rw [KeysSorted, List.pairwise_append] at hsort'
    obtain ⟨hp1, hp2, hcross⟩ := hsort'
    have hprekey : ∀ q ∈ pre, q.1 < key :=
      fun q hq => hcross q hq (key, v) (List.mem_cons_self _ _)
    have hrest : ∀ q ∈ rest, key < q.1 := by
      intro q hq
      exact (List.pairwise_cons.mp hp2).1 q hq
    have hkey : key ≠ k := hnk (key, v) (by simp)
    have hprek : ∀ q ∈ pre, q.1 ≠ k := fun q hq => hnk q (List.mem_append_left _ hq)
    rw [shiftStep_eq k key v pre rest hprekey hprek hrest hkey]
    have hsort2 : KeysSorted ((pre ++ [(key, v)]) ++ rest) := by
      rw [List.append_assoc, List.singleton_append]
      exact hsort
    have hnk2 : ∀ q ∈ (pre ++ [(key, v)]) ++ rest, q.1 ≠ k := by
      rw [List.append_assoc, List.singleton_append]
      exact hnk
    have hres := ih (pre ++ [(key, v)]) hsort2 hnk2
    rw [List.append_assoc, List.singleton_append] at hres
    exact hres

theorem removeGeneratedAt_eq_shifted (m : GeneratedMap) (k : Nat) (hsort : KeysSorted m) :
    removeGeneratedAt m k = shifted k (objDelete m k) := by
  have hd_sort : KeysSorted (objDelete m k) := List.Pairwise.filter _ hsort
  have hd_nk : ∀ p ∈ objDelete m k, p.1 ≠ k := by
    intro p hp
    have := List.of_mem_filter hp
    simpa using this
  have h := fold_shift_inv k (objDelete m k) [] (by simpa using hd_sort)
    (by simpa using hd_nk)
  simpa [removeGeneratedAt, shifted] using h

theorem objGet_objDelete_ne (k j : Nat) (hj : j ≠ k) :
    ∀ m : GeneratedMap, objGet (objDelete m k) j = objGet m j := by
  intro m
  induction m with
  | nil => rfl
  | cons p t ih =>
    obtain ⟨k1, v1⟩ := p
    rw [objDelete, List.filter_cons]
    by_cases h1 : k1 = k
    · rw [if_neg (by simp [h1])]
      rw [objGet_cons, if_neg (by omega)]
      exact ih
    · rw [if_pos (by simpa using h1), objGet_cons, objGet_cons]
      by_cases h2 : k1 = j
      · rw [if_pos h2, if_pos h2]
      · rw [if_neg h2, if_neg h2]
        exact ih

theorem objGet_shifted (k : Nat) :
    ∀ d : GeneratedMap, KeysSorted d → (∀ p ∈ d, p.1 ≠ k) →
      ∀ i, objGet (shifted k d) i = if i < k then objGet d i else objGet d (i + 1) := by
  intro d
  induction d with
  | nil =>
    intro _ _ i
    by_cases h : i < k <;> simp [h, shifted, objGet_nil]
  | cons p t ih =>
    obtain ⟨k1, v1⟩ := p
    intro hsort hnk i
    have hk1 : k1 ≠ k := hnk (k1, v1) (by simp)
    have htail_sort : KeysSorted t := (List.pairwise_cons.mp hsort).2
    have htail_nk : ∀ q ∈ t, q.1 ≠ k := fun q hq => hnk q (List.mem_cons_of_mem _ hq)
    rw [shifted_cons]
    by_cases hck : k < k1
    · rw [if_pos hck, objGet_cons]
      by_cases hik : k1 - 1 = i
      · rw [if_pos hik, if_neg (by omega), objGet_cons, if_pos (by omega)]
      · rw [if_neg hik, ih htail_sort htail_nk i]
        by_cases h2 : i < k
        · rw [if_pos h2, if_pos h2, objGet_cons, if_neg (by omega)]
        · rw [if_neg h2, if_neg h2, objGet_cons, if_neg (by omega)]
    · have hlt : k1 < k := by omega
      rw [if_neg hck, objGet_cons]
      by_cases hik : k1 = i
      · rw [if_pos hik, if_pos (by omega), objGet_cons, if_pos hik]
      · rw [if_neg hik, ih htail_sort htail_nk i]
        by_cases h2 : i < k
        · rw [if_pos h2, if_pos h2, objGet_cons, if_neg hik]
        · rw [if_neg h2, if_neg h2, objGet_cons, if_neg (by omega)]

theorem KeysSorted_shifted (k : Nat) (d : GeneratedMap) (hsort : KeysSorted d)
    (hnk : ∀ p ∈ d, p.1 ≠ k) : KeysSorted (shifted k d) := by
  rw [KeysSorted, shifted, List.pairwise_map]
  refine hsort.imp_of_mem ?_
  intro a b ha hb hab
  have hak := hnk a ha
  have hbk := hnk b hb
  by_cases h1 : k < a.1 <;> by_cases h2 : k < b.1 <;> simp only [h1, h2, if_true, if_false,
    reduceIte] <;> omega

/-- C3: removing the uploaded image at index `k` removes exactly that
list element (order of the rest preserved, via `eraseIdx`); in the
generated-image map the entry at key `k` is deleted and every entry at a
key above `k` is re-indexed down by exactly one — the resulting lookup at
`i` is the old lookup at `i` below `k` and at `i + 1` from `k` on, which
introduces no gaps — and the keys remain strictly ascending, so there are
no duplicate keys. -/
theorem C3_remove_image_reindex (s : App) (k : Nat)
    (hsort : KeysSorted s.generatedImages) :
    (handleRemoveImage s k).originalImages = s.originalImages.eraseIdx k
    ∧ (∀ i, objGet (handleRemoveImage s k).generatedImages i =
        if i < k then objGet s.generatedImages i else objGet s.generatedImages (i + 1))
    ∧ KeysSorted (handleRemoveImage s k).generatedImages := by
  have hd_sort : KeysSorted (objDelete s.generatedImages k) :=
    List.Pairwise.filter _ hsort
  have hd_nk : ∀ p ∈ objDelete s.generatedImages k, p.1 ≠ k := by
    intro p hp
    have := List.of_mem_filter hp
    simpa using this
  have heq : (handleRemoveImage s k).generatedImages =
      shifted k (objDelete s.generatedImages k) :=
    removeGeneratedAt_eq_shifted s.generatedImages k hsort
  refine ⟨removeOriginalAt_eq_eraseIdx _ _, ?_, ?_⟩
  · intro i
    rw [heq, objGet_shifted k _ hd_sort hd_nk i]
    by_cases hik : i < k
    · rw [if_pos hik, if_pos hik, objGet_objDelete_ne k i (by omega)]
    · rw [if_neg hik, if_neg hik, objGet_objDelete_ne k (i + 1) (by omega)]
  · rw [heq]
    exact KeysSorted_shifted k _ hd_sort hd_nk

/-- Witness for C3 at `sampleApp` (three uploads, generated entries at
keys 0, 1, 2), removing index 1. -/
theorem C3_remove_image_reindex_witness :
    (handleRemoveImage sampleApp 1).originalImages = sampleApp.originalImages.eraseIdx 1
    ∧ (∀ i, objGet (handleRemoveImage sampleApp 1).generatedImages i =
        if i < 1 then objGet sampleApp.generatedImages i
        else objGet sampleApp.generatedImages (i + 1))
    ∧ KeysSorted (handleRemoveImage sampleApp 1).generatedImages :=
  C3_remove_image_reindex sampleApp 1 (by decide)

theorem parseLoop_cons_match (acc : List Char) (c : Char) (rest n u r : List Char)
    (hpre : List.isPrefixOf "- **[".data (c :: rest) = true)
    (htn : tryName ((c :: rest).drop 5) = some (n, u, r)) :
    parseLoop acc (c :: rest) =
      (if acc.isEmpty then [] else [Segment.text (String.mk acc.reverse)]) ++
        Segment.item (String.mk n) (String.mk u)
          (String.mk (r.takeWhile (fun ch => ch ≠ '\n'))) ::
          parseLoop [] (r.drop (r.takeWhile (fun ch => ch ≠ '\n')).length) := by
  rw [parseLoop.eq_2, if_pos hpre]
  split
  next n' u' r' heq =>
    rw [htn] at heq
    simp only [Option.some.injEq, Prod.mk.injEq] at heq
    obtain ⟨rfl, rfl, rfl⟩ := heq
    rfl
  next heq =>
    rw [htn] at heq
    cases heq

theorem parseLoop_cons_nomatch (acc : List Char) (c : Char) (rest : List Char)
    (h : List.isPrefixOf "- **[".data (c :: rest) = true →
      tryName ((c :: rest).drop 5) = none) :
    parseLoop acc (c :: rest) = parseLoop (c :: acc) rest := by
  rw [parseLoop.eq_2]
  by_cases hpre : List.isPrefixOf "- **[".data (c :: rest) = true
  · rw [if_pos hpre]
    split
    next n' u' r' heq =>
      rw [h hpre] at heq
      cases heq
    next => rfl
  · rw [if_neg hpre]

theorem parseLoop_no_item :
    ∀ (acc cs : List Char),
      (∀ n u d, Segment.item n u d ∉ parseLoop acc cs) →
      parseLoop acc cs =
        if (acc.reverse ++ cs).isEmpty then []
        else [Segment.text (String.mk (acc.reverse ++ cs))] := by
  intro acc cs
  induction acc, cs using parseLoop.induct with
  | case1 acc hacc =>
    intro _
    obtain rfl := List.isEmpty_iff.mp hacc
    rw [parseLoop.eq_1]
    rfl
  | case2 acc hacc =>
    intro _
    have hacc' : acc ≠ [] := by
      intro hh
      subst hh
      exact hacc rfl
    rw [parseLoop.eq_1, if_neg hacc, List.append_nil,
      if_neg (by simp [List.isEmpty_iff, hacc'])]
  | case3 acc c rest hpre n u r htn desc rest' ihdummy =>
    intro hno
    exfalso
    refine hno (String.mk n) (String.mk u)
      (String.mk (r.takeWhile (fun ch => ch ≠ '\n'))) ?_
    rw [parseLoop_cons_match acc c rest n u r hpre htn]
    exact List.mem_append_right _ (List.mem_cons_self _ _)
  | case4 acc c rest hpre htn ih =>
    intro hno
    have hstep := parseLoop_cons_nomatch acc c rest (fun _ => htn)
    rw [hstep] at hno ⊢
    rw [ih hno, List.reverse_cons, List.append_assoc, List.singleton_append]
  | case5 acc c rest hpre ih =>
    intro hno
    have hstep := parseLoop_cons_nomatch acc c rest (fun hp => absurd hp hpre)
    rw [hstep] at hno ⊢
    rw [ih hno, List.reverse_cons, List.append_assoc, List.singleton_append]

/-- C7: the parser is a pure function of role and text (it is a plain
function in this model, so parsing twice yields identical output); user
messages always render as one literal run; a model message whose parse
contains no structured reference renders as one literal run equal to the
whole text; and the scenario text parses into exactly one structured
shopping reference (with an empty literal part) carrying name "Sofa",
url "http://x" and description "Grey linen sofa", in text order. -/
theorem C7_parsed_message :
    (∀ t : String, parseMessage Role.user t = [Segment.text t])
    ∧ (∀ t : String, (∀ n u d, Segment.item n u d ∉ parseMessage Role.model t) →
        parseMessage Role.model t = [Segment.text t])
    ∧ parseMessage Role.model "- **[Sofa](http://x)** - Grey linen sofa" =
        [Segment.item "Sofa" "http://x" "Grey linen sofa"] := by
  refine ⟨?_, ?_, ?_⟩
  · intro t
    simp [parseMessage]
  · intro t hno
    by_cases hg : (Role.model = Role.user || !(jsIncludes t "- **[")) = true
    · rw [parseMessage, if_pos hg]
    · rw [parseMessage, if_neg hg] at hno ⊢
      have hne : t.data ≠ [] := by
        intro hd
        apply hg
        have ht : t = "" := by
          cases t with
          | mk d => simp at hd; rw [hd]
        rw [ht]
        decide
      rw [parseLoop_no_item [] t.data hno, List.reverse_nil, List.nil_append,
        if_neg (by simp [List.isEmpty_iff, hne])]
  · have hdata : ("- **[Sofa](http://x)** - Grey linen sofa" : String).data =
        ['-', ' ', '*', '*', '[', 'S', 'o', 'f', 'a', ']', '(', 'h', 't', 't', 'p', ':', '/', '/', 'x', ')', '*', '*', ' ', '-', ' ', 'G', 'r', 'e', 'y', ' ', 'l', 'i', 'n', 'e', 'n', ' ', 's', 'o', 'f', 'a'] := by decide
    rw [parseMessage, if_neg (by decide), hdata,
      parseLoop_cons_match [] '-' [' ', '*', '*', '[', 'S', 'o', 'f', 'a', ']', '(', 'h', 't', 't', 'p', ':', '/', '/', 'x', ')', '*', '*', ' ', '-', ' ', 'G', 'r', 'e', 'y', ' ', 'l', 'i', 'n', 'e', 'n', ' ', 's', 'o', 'f', 'a'] ['S', 'o', 'f', 'a'] ['h', 't', 't', 'p', ':', '/', '/', 'x'] ['G', 'r', 'e', 'y', ' ', 'l', 'i', 'n', 'e', 'n', ' ', 's', 'o', 'f', 'a'] (by decide) (by decide)]
    rw [show List.drop (List.takeWhile (fun ch => ch ≠ '\n')
        (['G', 'r', 'e', 'y', ' ', 'l', 'i', 'n', 'e', 'n', ' ', 's', 'o', 'f', 'a'] : List Char)).length (['G', 'r', 'e', 'y', ' ', 'l', 'i', 'n', 'e', 'n', ' ', 's', 'o', 'f', 'a'] : List Char) = ([] : List Char) from by decide]
    rw [parseLoop.eq_1]
    decide

/-- Witness for C7's no-structured-reference case at a concrete model
message that contains the literal lead-in but no well-formed match. -/
theorem C7_parsed_message_witness :
    parseMessage Role.model "hello" = [Segment.text "hello"] :=
  C7_parsed_message.2.1 "hello" (by
    intro n u d hmem
    rw [show parseMessage Role.model "hello" = [Segment.text "hello"] from by decide] at hmem
    simp at hmem)

end DesignAI
